import Mathlib

/-
  Verification of the SMCloudStore storage library core against its
  natural-language specification.

  Shallow embedding conventions:
  - JavaScript promises that settle are modelled with Except: Except.ok is a
    resolved promise, Except.error a rejected one.
  - A JavaScript Error value is a pair of a constructor name and a message;
    plain Error(msg) carries the name "Error".
  - Byte buffers are lists of natural numbers; each backend client is a pure
    function supplied as a parameter.
-/

/-- A JavaScript Error value: the constructor name and the message.
A plain Error(msg) has name "Error"; typed error classes of the spec
taxonomy (ValidationError, AlreadyExistsError, ...) would carry their
class name. -/
structure JSError where
  name : String
  message : String
deriving DecidableEq, Repr

/-- The value produced by the plain JavaScript Error constructor. -/
def jsError (message : String) : JSError :=
  ⟨"Error", message⟩

instance {ε α : Type} [DecidableEq ε] [DecidableEq α] : DecidableEq (Except ε α)
  | .error e1, .error e2 =>
    if h : e1 = e2 then .isTrue (by rw [h]) else .isFalse (fun hh => by cases hh; exact h rfl)
  | .error _, .ok _ => .isFalse (fun hh => by cases hh)
  | .ok _, .error _ => .isFalse (fun hh => by cases hh)
  | .ok a1, .ok a2 =>
    if h : a1 = a2 then .isTrue (by rw [h]) else .isFalse (fun hh => by cases hh; exact h rfl)

namespace GenericS3

/-- GenericS3Provider.containerExists, from
packages/smcloudstore-generic-s3/src/GenericS3Provider.ts lines 52-61.
The argument is the settled outcome of the underlying minio bucketExists
promise. The then-handler coerces the resolution to a boolean and the
catch-handler maps every rejection to false, so the returned promise
always resolves. -/
def containerExists (bucketExistsOutcome : Except JSError Bool) : Except JSError Bool :=
  match bucketExistsOutcome with
  | .ok result => .ok result
  | .error _ => .ok false

/-- Strict container creation against a backend whose state is the list of
existing container names: creating a name that is already taken rejects
with AlreadyExistsError, mirroring the strict create primitive
(minio makeBucket, B2 createBucket). -/
def createContainer (st : List String) (container : String) : Except JSError (List String) :=
  if st.contains container then
    .error ⟨"AlreadyExistsError", "Container already exists"⟩
  else
    .ok (container :: st)

/-- The check-then-create ensureContainer used by GenericS3Provider
(GenericS3Provider.ts lines 71-77) and BackblazeB2Provider: query
containerExists and call the strict create only when the container is
absent. The backend state is the list of existing container names. -/
def ensureContainer (st : List String) (container : String) : Except JSError (List String) :=
  if st.contains container then
    .ok st
  else
    createContainer st container

end GenericS3

namespace Azure

/-- AzureStorageProvider.createContainerInternal with ifNotExists = true:
the createContainerIfNotExists client call succeeds whether or not the
container already exists. The backend state is the list of existing
container names. -/
def createContainerIfNotExists (st : List String) (container : String) : Except JSError (List String) :=
  if st.contains container then
    .ok st
  else
    .ok (container :: st)

/-- AzureStorageProvider.ensureContainer: delegates to
createContainerInternal with the ifNotExists variant. -/
def ensureContainer (st : List String) (container : String) : Except JSError (List String) :=
  createContainerIfNotExists st container

end Azure

/-- Modelled from the spec: the presignedGetUrl and presignedPutUrl
operations are absent from the TypeScript sources of this snapshot (the
StorageProvider base class does not declare them; only the README, the
Changelog and the test suite refer to them). A backend is modelled by its
capability flag and its two signing functions; per the spec, a backend
lacking the capability must fail both calls fast and synchronously with
UnsupportedOperationError. -/
structure PresignedBackend where
  supportsPresignedUrls : Bool
  signGetUrl : String → String → Nat → String
  signPutUrl : String → String → Nat → String

/-- Outcome of invoking a method that may throw synchronously before
returning a promise: thrown is a synchronous exception raised on
invocation, promise is a value produced asynchronously. -/
inductive SyncResult (α : Type) where
  | thrown (e : JSError)
  | promise (v : α)
deriving DecidableEq, Repr

/-- The UnsupportedOperationError of the spec error taxonomy. -/
def unsupportedOperationError : JSError :=
  ⟨"UnsupportedOperationError", "Unsupported operation"⟩

/-- Modelled from the spec: presignedGetUrl fails synchronously with
UnsupportedOperationError when the backend lacks the capability, and
otherwise produces the signed URL. -/
def presignedGetUrl (p : PresignedBackend) (container path : String) (ttl : Nat) : SyncResult String :=
  if p.supportsPresignedUrls then
    .promise (p.signGetUrl container path ttl)
  else
    .thrown unsupportedOperationError

/-- Modelled from the spec: presignedPutUrl, same shape as presignedGetUrl. -/
def presignedPutUrl (p : PresignedBackend) (container path : String) (ttl : Nat) : SyncResult String :=
  if p.supportsPresignedUrls then
    .promise (p.signPutUrl container path ttl)
  else
    .thrown unsupportedOperationError

/-- C10: GenericS3Provider.containerExists never rejects: every outcome of
the underlying bucketExists call yields a resolved boolean, and every
rejection, whatever its error, resolves to false. -/
theorem c10_containerExists_never_rejects :
    (∀ o : Except JSError Bool, ∃ b : Bool, GenericS3.containerExists o = .ok b) ∧
    (∀ e : JSError, GenericS3.containerExists (.error e) = .ok false) := by
  constructor
  · intro o
    cases o with
    | ok r => exact ⟨r, rfl⟩
    | error e => exact ⟨false, rfl⟩
  · intro e
    rfl

/-- C7: calling ensureContainer twice in a row never raises
AlreadyExistsError: both the check-then-create variant (GenericS3 and
Backblaze B2) and the createContainerIfNotExists variant (Azure) resolve
on the first call, and the second call, seeing the container present,
resolves as well without a strict create. -/
theorem c7_ensureContainer_twice_never_already_exists :
    ∀ (st : List String) (container : String),
      (∃ st1, GenericS3.ensureContainer st container = .ok st1 ∧
        GenericS3.ensureContainer st1 container = .ok st1) ∧
      (∃ st2, Azure.ensureContainer st container = .ok st2 ∧
        Azure.ensureContainer st2 container = .ok st2) := by
  intro st container
  constructor
  · by_cases h : container ∈ st
    · exact ⟨st, by simp [GenericS3.ensureContainer, h], by simp [GenericS3.ensureContainer, h]⟩
    · refine ⟨container :: st, ?_, ?_⟩
      · simp [GenericS3.ensureContainer, GenericS3.createContainer, h]
      · simp [GenericS3.ensureContainer]
  · by_cases h : container ∈ st
    · exact ⟨st, by simp [Azure.ensureContainer, Azure.createContainerIfNotExists, h],
        by simp [Azure.ensureContainer, Azure.createContainerIfNotExists, h]⟩
    · refine ⟨container :: st, ?_, ?_⟩
      · simp [Azure.ensureContainer, Azure.createContainerIfNotExists, h]
      · simp [Azure.ensureContainer, Azure.createContainerIfNotExists]

/-- C8: on a backend lacking the presigned-URL capability, every call to
presignedGetUrl or presignedPutUrl throws synchronously (the thrown
constructor, raised on invocation before any asynchronous step) with
UnsupportedOperationError, whose class name is the specific
UnsupportedOperationError, not the generic Error. -/
theorem c8_presigned_urls_unsupported :
    ∀ (p : PresignedBackend) (container path : String) (ttl : Nat),
      p.supportsPresignedUrls = false →
      presignedGetUrl p container path ttl = .thrown unsupportedOperationError ∧
      presignedPutUrl p container path ttl = .thrown unsupportedOperationError ∧
      unsupportedOperationError.name = "UnsupportedOperationError" := by
  intro p container path ttl h
  refine ⟨?_, ?_, rfl⟩
  · simp [presignedGetUrl, h]
  · simp [presignedPutUrl, h]

/-- Witness for C8 at a concrete backend without the capability. -/
theorem c8_presigned_urls_unsupported_witness :
    presignedGetUrl ⟨false, fun _ _ _ => "", fun _ _ _ => ""⟩ "c" "p" 60 = .thrown unsupportedOperationError ∧
    presignedPutUrl ⟨false, fun _ _ _ => "", fun _ _ _ => ""⟩ "c" "p" 60 = .thrown unsupportedOperationError ∧
    unsupportedOperationError.name = "UnsupportedOperationError" :=
  c8_presigned_urls_unsupported ⟨false, fun _ _ _ => "", fun _ _ _ => ""⟩ "c" "p" 60 rfl

namespace Core

/-- Model of a Node.js Readable stream as ExtractFromStream
(packages/core/src/StreamUtils.ts lines 60-103) observes it at quiescence:
remaining is the byte sequence the stream will still deliver to its
consumer, ended is the ended flag of the private internal readable state
(true once the end of the source has been signalled), and
readableStateVisible records whether that private, non-public state is
exposed on the object at all, which the source explicitly refuses to
assume. -/
structure ReadableStream where
  remaining : List Nat
  ended : Bool
  readableStateVisible : Bool
deriving DecidableEq, Repr

/-- Node semantics of stream.read(size), as documented by the comment in
the source: if we do not have enough data, and the stream has not ended,
this returns null; otherwise it consumes and returns the first
min(size, available) bytes. -/
def streamRead (s : ReadableStream) (size : Nat) : Option (List Nat × ReadableStream) :=
  if size ≤ s.remaining.length ∨ s.ended then
    some (s.remaining.take size, { s with remaining := s.remaining.drop size })
  else
    none

/-- Node semantics of stream.unshift(data): the bytes are pushed back to
the front of the stream, ahead of everything still unread. -/
def streamUnshift (s : ReadableStream) (data : List Nat) : ReadableStream :=
  { s with remaining := data ++ s.remaining }

/-- Fully draining a stream yields exactly its remaining bytes. -/
def streamDrain (s : ReadableStream) : List Nat :=
  s.remaining

/-- The once-readable loop of ExtractFromStream: it calls read(size) and,
when that returns null, waits for the next readable event and retries. At
quiescence the remaining field already holds every byte the source will
deliver, so the wait can only end with the end of the stream being
signalled, after which read returns whatever remains. -/
def awaitRead (s : ReadableStream) (size : Nat) : List Nat × ReadableStream :=
  match streamRead s size with
  | some r => r
  | none => (s.remaining.take size, { s with remaining := s.remaining.drop size, ended := true })

/-- ExtractFromStream (StreamUtils.ts lines 60-103): after pausing the
stream it inspects the private readable state and throws a plain Error
when that state is exposed and its ended flag is set; otherwise it waits
until read(size) yields data, pushes the very same bytes back with
unshift, and resolves with them. The guard against a missing stream
argument cannot fire on a well-typed Readable and is omitted. -/
def ExtractFromStream (s : ReadableStream) (size : Nat) : Except JSError (List Nat × ReadableStream) :=
  if s.readableStateVisible && s.ended then
    .error (jsError "Stream has ended already")
  else
    let r := awaitRead s size
    .ok (r.1, streamUnshift r.2 r.1)

/-- The stream as the caller can observe it after a peek: the stream
returned on success, or the untouched stream when the call threw before
reading anything. -/
def streamAfterPeek (s : ReadableStream) (size : Nat) : ReadableStream :=
  match ExtractFromStream s size with
  | .ok (_, s2) => s2
  | .error _ => s

end Core

namespace B2

/-- The static B2Upload.ChunkSize: 20 MB. -/
def ChunkSize : Nat := 20 * 1024 * 1024

/-- The data argument of B2Upload, after the runtime type inspection the
source performs: a string (carried as its utf8 bytes), a Buffer, a
readable Stream, or any other JavaScript value. -/
inductive PutData where
  | str (bytes : List Nat)
  | buf (bytes : List Nat)
  | stream (s : Core.ReadableStream)
  | other
deriving DecidableEq, Repr

/-- IsStream from StreamUtils.ts: an object with a pipe function, which of
the four runtime shapes only a Stream is. -/
def IsStream : PutData → Bool
  | .stream _ => true
  | _ => false

/-- What B2Upload.start does with the data argument: proceed to the
single-shot putFile upload with a byte buffer, throw synchronously, or
fall off the end of the function without starting any upload (the entire
chunked path of the source is commented out, so the method body ends with
no return statement). -/
inductive StartOutcome where
  | singleShot (bytes : List Nat)
  | thrown (e : JSError)
  | noAction
deriving DecidableEq, Repr

/-- B2Upload.start (B2Upload.ts lines 61-122): strings are converted to
Buffers and, with Buffers, go to putFile after a 5 GB ceiling check; then
the source throws the invalid-data-type error precisely when IsStream is
true of the data; then a chunk-size floor check runs, and the method ends
with no action. -/
def start (data : PutData) : StartOutcome :=
  match data with
  | .str bytes =>
    if bytes.length > 5 * 1024 * 1024 * 1024 then
      .thrown (jsError "Maximum size for strings and Buffers is 5 GB")
    else
      .singleShot bytes
  | .buf bytes =>
    if bytes.length > 5 * 1024 * 1024 * 1024 then
      .thrown (jsError "Maximum size for strings and Buffers is 5 GB")
    else
      .singleShot bytes
  | d =>
    if IsStream d then
      .thrown (jsError "putObject requires a Stream, a Buffer or a string")
    else if ChunkSize < 5 * 1024 * 1024 then
      .thrown (jsError "chunkSize must be at least 5MB")
    else
      .noAction

end B2

/-- C3: peeking is non-destructive. For every readable source and every
size, the source observed after ExtractFromStream drains to exactly the
bytes it would have drained without the peek, whether the call succeeded
or threw; and a successful peek returns precisely the first
min(size, available) bytes, so nothing is lost and nothing duplicated.
The universally quantified size covers 0, sizes below, at and above the
length of the source. -/
theorem c3_peek_then_drain_preserves_bytes :
    ∀ (s : Core.ReadableStream) (n : Nat),
      Core.streamDrain (Core.streamAfterPeek s n) = Core.streamDrain s ∧
      (∀ buf s2, Core.ExtractFromStream s n = .ok (buf, s2) →
        buf = s.remaining.take n ∧ Core.streamDrain s2 = Core.streamDrain s) := by
  intro s n
  have haw : (Core.awaitRead s n).1 = s.remaining.take n ∧
      (Core.awaitRead s n).2.remaining = s.remaining.drop n := by
    by_cases hc : n ≤ s.remaining.length ∨ s.ended = true
    · simp [Core.awaitRead, Core.streamRead, hc]
    · simp [Core.awaitRead, Core.streamRead, hc]
  have hex : ∀ buf s2, Core.ExtractFromStream s n = .ok (buf, s2) →
      buf = s.remaining.take n ∧ Core.streamDrain s2 = Core.streamDrain s := by
    intro buf s2 h
    unfold Core.ExtractFromStream at h
    split at h
    · exact absurd h (by simp)
    · simp only [Except.ok.injEq, Prod.mk.injEq] at h
      obtain ⟨hb, hs⟩ := h
      subst hb hs
      refine ⟨haw.1, ?_⟩
      simp [Core.streamUnshift, Core.streamDrain, haw.1, haw.2]
  refine ⟨?_, hex⟩
  unfold Core.streamAfterPeek
  split
  · next buf s2 heq => exact (hex buf s2 heq).2
  · rfl

/-- Witness for C3 at a concrete three-byte stream peeked with size 2. -/
theorem c3_peek_then_drain_preserves_bytes_witness :
    ([1, 2] : List Nat) = (Core.ReadableStream.mk [1, 2, 3] false true).remaining.take 2 ∧
    Core.streamDrain (Core.ReadableStream.mk [1, 2, 3] false true) =
      Core.streamDrain (Core.ReadableStream.mk [1, 2, 3] false true) :=
  (c3_peek_then_drain_preserves_bytes ⟨[1, 2, 3], false, true⟩ 2).2
    [1, 2] ⟨[1, 2, 3], false, true⟩ rfl

/-- C9 counterexample: peeking a fully consumed source does fail, but with
the plain JavaScript Error whose message is the literal in the source, not
with a StreamEndedError class: the thrown value has constructor name
Error. -/
theorem c9_consumed_peek_error_counterexample :
    Core.ExtractFromStream ⟨[], true, true⟩ 3 = .error (jsError "Stream has ended already") ∧
    (jsError "Stream has ended already").name ≠ "StreamEndedError" := by
  constructor
  · rfl
  · decide

/-- C9 amended: for every n, peeking a source whose bytes have been fully
consumed fails synchronously, rather than hanging or returning an empty
buffer, with the generic Error carrying the message Stream has ended
already, and only provided the private internal readable state is exposed
on the stream object, since the source tests the ended flag through that
non-public state. -/
theorem c9_consumed_peek_fails_generic_error :
    ∀ (s : Core.ReadableStream) (n : Nat),
      s.remaining = [] →
      s.ended = true →
      s.readableStateVisible = true →
      Core.ExtractFromStream s n = .error (jsError "Stream has ended already") := by
  intro s n _ hend hvis
  simp [Core.ExtractFromStream, hend, hvis]

/-- Witness for C9 at a concrete consumed stream peeked with size 4. -/
theorem c9_consumed_peek_fails_generic_error_witness :
    Core.ExtractFromStream ⟨[], true, true⟩ 4 = .error (jsError "Stream has ended already") :=
  c9_consumed_peek_fails_generic_error ⟨[], true, true⟩ 4 rfl rfl rfl

/-- C4: evaluating B2Upload.start on Stream inputs. For every readable
stream, start throws the invalid-data-type error — the IsStream test
guarding the throw is not negated, so the branch fires exactly when the
data IS a stream — while a Buffer of the same bytes is accepted and sent
to the single-shot path. -/
theorem c4_start_rejects_streams :
    (∀ s : Core.ReadableStream,
      B2.start (.stream s) = .thrown (jsError "putObject requires a Stream, a Buffer or a string")) ∧
    B2.start (.buf [1, 2, 3]) = .singleShot [1, 2, 3] := by
  constructor
  · intro s
    rfl
  · rfl

namespace B2

/-- The static B2Upload.Retries: 3 retries by default. -/
def Retries : Nat := 3

/-- The outcome of one whole upload attempt (the getUploadUrl request
followed by the uploadFile request, or getUploadPartUrl followed by
uploadPart for a chunk): none when the attempt succeeds, some e when any
part of the chain rejects with e. Attempts are indexed from the start of
the call. -/
def AttemptOutcome : Type := Nat → Option JSError

/-- The observable trace of the retry engine: whether the returned promise
has settled (none while still retrying, some none resolved, some (some e)
rejected with e), how many upload attempts were performed, and the list of
waits (in ms) taken before each retry. -/
structure RetryTrace where
  settled : Option (Option JSError)
  attempts : Nat
  delays : List Nat
deriving DecidableEq, Repr

/-- B2Upload.putFile as written (B2Upload.ts lines 130-209), unfolded for
fuel frames; the identical skeleton drives _uploadPart for chunk uploads.
Every frame declares a fresh local retryCounter = 0. When the attempt
fails, the catch handler tests retryCounter < Retries — which always
passes, since the counter of the current frame is still 0 — increments the
counter to 1, waits (retryCounter + 1) * 500 = 1000 ms, and re-enters
putFile, whose new frame again starts the counter at 0. The real code has
no fuel bound; fuel only truncates the unfolding. -/
def putFileRun (outcome : AttemptOutcome) : Nat → Nat → RetryTrace
  | 0, _ => ⟨none, 0, []⟩
  | fuel + 1, k =>
    match outcome k with
    | none => ⟨some none, 1, []⟩
    | some e =>
      if 0 < Retries then
        let retryCounter := 0 + 1
        let rest := putFileRun outcome fuel (k + 1)
        ⟨rest.settled, rest.attempts + 1, ((retryCounter + 1) * 500) :: rest.delays⟩
      else
        ⟨some (some e), 1, []⟩

/-- The retry policy the spec describes and the source comments intend
(retrying all uploads 3 times): the retry counter survives across retries,
so after the original attempt at most Retries retries run, the wait before
retry k is (k + 1) * 500 ms, and once the counter reaches Retries the last
error is surfaced verbatim. The first argument counts the retries already
consumed as Retries - left. -/
def putFileIntendedAux (outcome : AttemptOutcome) : Nat → Nat → Option JSError × Nat × List Nat
  | 0, k =>
    match outcome k with
    | none => (none, 1, [])
    | some e => (some e, 1, [])
  | left + 1, k =>
    match outcome k with
    | none => (none, 1, [])
    | some _ =>
      let retryCounter := Retries - left
      let rest := putFileIntendedAux outcome left (k + 1)
      (rest.1, rest.2.1 + 1, ((retryCounter + 1) * 500) :: rest.2.2)

/-- Entry point of the intended policy: a full budget of Retries retries. -/
def putFileIntended (outcome : AttemptOutcome) : Option JSError × Nat × List Nat :=
  putFileIntendedAux outcome Retries 0

end B2

/-- C1: the retry ceiling is never enforced. When every underlying attempt
fails, the engine as written never settles: after fuel frames it has
performed exactly fuel attempts — in particular a fifth attempt is issued
once fuel reaches 5 — and every wait equals 1000 ms because the
frame-local retry counter is always 1 when the delay is computed. The
intended policy with a threaded counter, shown for contrast, performs
exactly 4 attempts, waits 1000, 1500 and 2000 ms, and rejects with the
last error verbatim. -/
theorem c1_retry_ceiling_not_enforced :
    (∀ fuel k, B2.putFileRun (fun _ => some (jsError "upload failed")) fuel k =
      ⟨none, fuel, List.replicate fuel 1000⟩) ∧
    B2.putFileIntended (fun _ => some (jsError "upload failed")) =
      (some (jsError "upload failed"), 4, [1000, 1500, 2000]) := by
  constructor
  · intro fuel
    induction fuel with
    | zero => intro k; rfl
    | succ m ih =>
      intro k
      simp only [B2.putFileRun, ih (k + 1), List.replicate]
      rfl
  · rfl

/-- An element of the ListResults array: an object entry (path and size
stand in for the full record) or a virtual-folder entry. -/
inductive ListEntry where
  | object (path : String) (size : Nat)
  | folder (pfx : String)
deriving DecidableEq, Repr

namespace AwsS3

/-- One page of the S3 ListObjectsV2 backend: the entries the page carries
(objects from Contents and folder entries from CommonPrefixes, already
converted) and the NextContinuationToken the service returns, present
exactly when more pages follow. The backend is a function from the
ContinuationToken of the request to the page it serves. -/
structure ListPage where
  entries : List ListEntry
  nextContinuationToken : Option String
deriving DecidableEq, Repr

/-- The makeRequest loop of AwsS3Provider.listObjects (AwsS3Provider.ts
lines 343-394). Each iteration sends the current token, appends the
entries of the page to the accumulated list, and then tests
data.ContinuationToken — which in the ListObjectsV2 response is the echo
of the token the request itself carried, not the cursor of the next page
(that is the separate NextContinuationToken field, which the source never
reads). The result is none while the loop has not resolved within fuel
iterations. -/
def makeRequest (backend : Option String → ListPage) :
    Nat → Option String → List ListEntry → Option (List ListEntry)
  | 0, _, _ => none
  | fuel + 1, token, acc =>
    let data := backend token
    let echoedContinuationToken := token
    let acc2 := acc ++ data.entries
    match echoedContinuationToken with
    | some t => makeRequest backend fuel (some t) acc2
    | none => some acc2

/-- AwsS3Provider.listObjects: enter the loop with no token and an empty
list. -/
def listObjects (backend : Option String → ListPage) (fuel : Nat) : Option (List ListEntry) :=
  makeRequest backend fuel none []

/-- The complete aggregation the claim describes: thread the
NextContinuationToken of each page into the next request and stop when a
page carries none. -/
def completeList (backend : Option String → ListPage) :
    Nat → Option String → Option (List ListEntry)
  | 0, _ => none
  | fuel + 1, token =>
    let data := backend token
    match data.nextContinuationToken with
    | some t => (completeList backend fuel (some t)).map (data.entries ++ ·)
    | none => some data.entries

/-- A backend that splits one listing into two pages: the first request
serves entry a with a cursor to the second page, which serves entry b. -/
def twoPageBackend : Option String → ListPage
  | none => ⟨[.object "a/x" 1], some "page2"⟩
  | some t => if t = "page2" then ⟨[.object "a/y" 2], none⟩ else ⟨[], none⟩

end AwsS3

namespace B2

/-- The response of one b2_list_file_names call: the converted entries and
the nextFileName cursor, present exactly when more pages follow. The
backend maps the startFileName of the request to the page it serves; a
request without startFileName gets the first page. -/
structure ListFileNamesResponse where
  files : List ListEntry
  nextFileName : Option String
deriving DecidableEq, Repr

/-- The requestList loop of BackblazeB2Provider.listObjects. The recursion
passes response.data.nextFileName along as startFileName, but the request
body it builds holds only bucketId, prefix, delimiter and maxFileCount —
startFileName is never placed in it — so every iteration asks the backend
for the first page again. The result is none while the loop has not
resolved within fuel iterations. -/
def requestList (backend : Option String → ListFileNamesResponse) :
    Nat → Option String → List ListEntry → Option (List ListEntry)
  | 0, _, _ => none
  | fuel + 1, _startFileName, acc =>
    let response := backend none
    let acc2 := acc ++ response.files
    match response.nextFileName with
    | some nxt => requestList backend fuel (some nxt) acc2
    | none => some acc2

/-- A two-page b2_list_file_names backend, same listing split as the S3
one. -/
def twoPageBackend : Option String → ListFileNamesResponse
  | none => ⟨[.object "a/x" 1], some "a/y"⟩
  | some t => if t = "a/y" then ⟨[.object "a/y" 2], none⟩ else ⟨[], none⟩

end B2

/-- C2: pagination is broken in both cited implementations. Against a
backend that splits the listing into two pages, the AWS walk resolves with
the entries of the first page only, for every fuel — the echoed request
token it tests is absent on the first response, so the continuation is
never followed — while the complete aggregation of the claim returns both
entries; and the B2 walk never resolves at all, because omitting
startFileName from the request makes it refetch the first page forever. -/
theorem c2_pagination_never_follows_cursor :
    (∀ fuel, AwsS3.listObjects AwsS3.twoPageBackend (fuel + 1) = some [.object "a/x" 1]) ∧
    AwsS3.completeList AwsS3.twoPageBackend 2 none =
      some [.object "a/x" 1, .object "a/y" 2] ∧
    ([ListEntry.object "a/x" 1] ≠ [.object "a/x" 1, .object "a/y" 2]) ∧
    (∀ fuel start acc, B2.requestList B2.twoPageBackend fuel start acc = none) := by
  refine ⟨fun fuel => rfl, rfl, by decide, ?_⟩
  intro fuel
  induction fuel with
  | zero => intro start acc; rfl
  | succ m ih =>
    intro start acc
    simpa [B2.requestList, B2.twoPageBackend] using ih (some "a/y") (acc ++ [.object "a/x" 1])

namespace B2

/-- The character-set test the source applies to custom metadata keys: the
key must be a nonempty run of characters matched by the class of ASCII
letters, digits and the hyphen. -/
def validHeaderKey (key : String) : Bool :=
  key.data.length > 0 && key.data.all (fun c => c.isAlphanum || c == '-')

/-- The metadata loop inside B2Upload.putFile (B2Upload.ts lines 152-190):
walk the metadata entries in order with a counter i starting at 0;
a key equal to Content-Type sets the mime argument and is not counted;
any other key first trips the ceiling when i has reached 10, then the
character-set test, and is otherwise stored in the info object, prefixed
with X-Bz-Info- unless its first ten characters already are that prefix.
Both rejections are thrown as plain Errors. -/
def metadataLoop : Nat → String → List (String × String) → Except JSError (List (String × String) × String)
  | _, mime, [] => .ok ([], mime)
  | i, mime, (key, value) :: rest =>
    if key == "Content-Type" then
      metadataLoop i value rest
    else if i == 10 then
      .error (jsError "Cannot send more than 10 custom headers")
    else if !validHeaderKey key then
      .error (jsError "Invalid header format: must be A-Za-z0-9")
    else
      let entry := if key.data.take 10 == "X-Bz-Info-".data then (key, value) else ("X-Bz-Info-" ++ key, value)
      (metadataLoop (i + 1) mime rest).map (fun r => (entry :: r.1, r.2))

/-- What one attempt of B2Upload.putFile observably does: how many network
calls it made and how it settled (none = resolved). -/
structure AttemptTrace where
  networkCalls : Nat
  result : Option JSError
deriving DecidableEq, Repr

/-- One attempt of B2Upload.putFile (B2Upload.ts lines 130-209), with the
backend abstracted as the response of getUploadUrl (none for an invalid
response) and the settled outcome of the eventual uploadFile request. The
attempt begins with the getUploadUrl network call; only the then-handler
of that call builds the request arguments and runs the metadata loop, so
a metadata violation is thrown after one network call has already been
made, and uploadFile is the second network call. -/
def putFileAttempt (uploadUrlResponse : Option (String × String))
    (metadata : List (String × String)) (uploadFileOutcome : Option JSError) : AttemptTrace :=
  match uploadUrlResponse with
  | none => ⟨1, some (jsError "Invalid response when requesting the upload url and upload authorization token")⟩
  | some _ =>
    match metadataLoop 0 "application/octet-stream" metadata with
    | .error e => ⟨1, some e⟩
    | .ok _ => ⟨2, uploadFileOutcome⟩

end B2

/-- Every rejection of the metadata loop is a plain Error, since the
source throws with the bare Error constructor. -/
theorem b2_metadataLoop_error_is_generic :
    ∀ (md : List (String × String)) (i : Nat) (mime : String) (e : JSError),
      B2.metadataLoop i mime md = .error e → e.name = "Error" := by
  intro md
  induction md with
  | nil =>
    intro i mime e h
    exact absurd h (by simp [B2.metadataLoop])
  | cons kv rest ih =>
    intro i mime e h
    unfold B2.metadataLoop at h
    split at h
    · exact ih i kv.2 e h
    · split at h
      · simp only [Except.error.injEq] at h
        subst h
        rfl
      · split at h
        · simp only [Except.error.injEq] at h
          subst h
          rfl
        · cases hrec : B2.metadataLoop (i + 1) mime rest with
          | ok r => rw [hrec] at h; simp [Except.map] at h
          | error e2 =>
            rw [hrec] at h
            simp only [Except.map, Except.error.injEq] at h
            subst h
            exact ih (i + 1) mime e2 hrec

/-- C5 counterexample: with a valid upload-url response and eleven custom
metadata entries, the attempt settles with the plain too-many-headers
Error, one network call (getUploadUrl) has already been made — not zero —
and the thrown value is not a ValidationError. -/
theorem c5_validation_after_network_call_counterexample :
    (B2.putFileAttempt (some ("url", "token"))
      [("K0", "v"), ("K1", "v"), ("K2", "v"), ("K3", "v"), ("K4", "v"), ("K5", "v"),
       ("K6", "v"), ("K7", "v"), ("K8", "v"), ("K9", "v"), ("K10", "v")] none =
      ⟨1, some (jsError "Cannot send more than 10 custom headers")⟩) ∧
    (1 : Nat) ≠ 0 ∧
    (jsError "Cannot send more than 10 custom headers").name ≠ "ValidationError" := by
  refine ⟨by decide, by decide, by decide⟩

/-- C5 amended: a metadata map that violates the provider limits makes the
attempt settle with the plain Error produced by the metadata loop — not a
ValidationError — and by then exactly one network call, getUploadUrl, has
already been made; uploadFile is never reached within the attempt. -/
theorem c5_metadata_violation_rejects_after_one_call :
    ∀ (resp : String × String) (metadata : List (String × String))
      (uploadFileOutcome : Option JSError) (e : JSError),
      B2.metadataLoop 0 "application/octet-stream" metadata = .error e →
      B2.putFileAttempt (some resp) metadata uploadFileOutcome = ⟨1, some e⟩ ∧
      e.name = "Error" := by
  intro resp metadata uploadFileOutcome e h
  exact ⟨by simp [B2.putFileAttempt, h], b2_metadataLoop_error_is_generic metadata 0 _ e h⟩

/-- Witness for C5 at a key whose characters fall outside the permitted
class. -/
theorem c5_metadata_violation_rejects_after_one_call_witness :
    B2.putFileAttempt (some ("url", "token")) [("bad key", "v")] none =
      ⟨1, some (jsError "Invalid header format: must be A-Za-z0-9")⟩ ∧
    (jsError "Invalid header format: must be A-Za-z0-9").name = "Error" :=
  c5_metadata_violation_rejects_after_one_call ("url", "token") [("bad key", "v")] none
    (jsError "Invalid header format: must be A-Za-z0-9") (by decide)

/-- The clone-check-delete idiom both AwsS3Provider.putObject
(AwsS3Provider.ts lines 274-304) and AzureStorageProvider.putObject apply
to each recognized header: look the key up in the cloned metadata object
with an exact, case-sensitive string index; when the value is truthy
(present and nonempty), move it out and delete the key, leaving every
other entry in the clone. -/
def takeMetadataKey (md : List (String × String)) (key : String) :
    Option String × List (String × String) :=
  match md.find? (fun e => e.1 == key) with
  | some kv => if kv.2 == "" then (none, md) else (some kv.2, md.filter (fun e => e.1 != key))
  | none => (none, md)

namespace AwsS3

/-- The S3 putObject request fields the metadata block of
AwsS3Provider.putObject fills: the six native header placements and the
Metadata bag for everything left in the clone. -/
structure MethodOptions where
  contentType : Option String
  contentEncoding : Option String
  contentLanguage : Option String
  cacheControl : Option String
  contentDisposition : Option String
  contentMD5 : Option String
  metadata : List (String × String)
deriving DecidableEq, Repr

/-- The metadata block of AwsS3Provider.putObject: six successive exact
lookups, in source order, each moving its key to the native field, with
the remainder of the clone becoming the Metadata bag. -/
def putObjectOptions (metadata : List (String × String)) : MethodOptions :=
  let s1 := takeMetadataKey metadata "Content-Type"
  let s2 := takeMetadataKey s1.2 "Content-Encoding"
  let s3 := takeMetadataKey s2.2 "Content-Language"
  let s4 := takeMetadataKey s3.2 "Cache-Control"
  let s5 := takeMetadataKey s4.2 "Content-Disposition"
  let s6 := takeMetadataKey s5.2 "Content-MD5"
  ⟨s1.1, s2.1, s3.1, s4.1, s5.1, s6.1, s6.2⟩

end AwsS3

namespace Azure

/-- The contentSettings object of the Azure createBlockBlob request
options. -/
structure ContentSettings where
  contentType : Option String
  contentEncoding : Option String
  contentLanguage : Option String
  cacheControl : Option String
  contentDisposition : Option String
  contentMD5 : Option String
deriving DecidableEq, Repr

/-- The Azure createBlockBlob request options filled by the metadata block
of AzureStorageProvider.putObject: the six recognized headers go into
contentSettings, the remainder of the clone into the metadata bag. -/
structure BlobRequestOptions where
  contentSettings : ContentSettings
  metadata : List (String × String)
deriving DecidableEq, Repr

/-- The metadata block of AzureStorageProvider.putObject: the same six
exact, case-sensitive lookups as the AWS provider, in the same source
order, targeting the contentSettings fields. -/
def putObjectOptions (metadata : List (String × String)) : BlobRequestOptions :=
  let s1 := takeMetadataKey metadata "Content-Type"
  let s2 := takeMetadataKey s1.2 "Content-Encoding"
  let s3 := takeMetadataKey s2.2 "Content-Language"
  let s4 := takeMetadataKey s3.2 "Cache-Control"
  let s5 := takeMetadataKey s4.2 "Content-Disposition"
  let s6 := takeMetadataKey s5.2 "Content-MD5"
  ⟨⟨s1.1, s2.1, s3.1, s4.1, s5.1, s6.1⟩, s6.2⟩

end Azure

/-- The six canonical metadata keys, in the casing the providers index
with. -/
def canonicalMetadataKeys : List String :=
  ["Content-Type", "Content-Encoding", "Content-Language",
   "Cache-Control", "Content-Disposition", "Content-MD5"]

/-- An entry whose key differs from the looked-up one survives the
clone-check-delete step. -/
theorem mem_takeMetadataKey_snd {k v key : String} {md : List (String × String)}
    (hne : k ≠ key) (hmem : (k, v) ∈ md) : (k, v) ∈ (takeMetadataKey md key).2 := by
  unfold takeMetadataKey
  cases hf : md.find? (fun e => e.1 == key) with
  | none => exact hmem
  | some kv =>
    by_cases hv : kv.2 == ""
    · simp only [hv, if_pos]
      exact hmem
    · simp only [hv, Bool.false_eq_true, if_neg, not_false_iff]
      exact List.mem_filter.mpr ⟨hmem, by simp [hne]⟩

/-- C6 counterexample: a caller writing the Content-Type key in lower case
is not matched: neither provider maps it to the native placement, and the
entry instead passes through as custom metadata. -/
theorem c6_lowercase_content_type_not_matched_counterexample :
    (AwsS3.putObjectOptions [("content-type", "text/plain")]).contentType = none ∧
    (AwsS3.putObjectOptions [("content-type", "text/plain")]).metadata =
      [("content-type", "text/plain")] ∧
    (Azure.putObjectOptions [("content-type", "text/plain")]).contentSettings.contentType = none ∧
    (Azure.putObjectOptions [("content-type", "text/plain")]).metadata =
      [("content-type", "text/plain")] := by
  refine ⟨by decide, by decide, by decide, by decide⟩

/-- C6 amended: matching of the recognized canonical keys is
case-sensitive. A key written exactly in canonical casing is mapped to the
native placement of each backend and removed from the custom bag, while a
key outside the canonical six — which includes every other casing of a
canonical name — passes through unchanged into the custom metadata bag of
both providers. -/
theorem c6_canonical_keys_matched_case_sensitively :
    ∀ v : String, v ≠ "" →
      ((AwsS3.putObjectOptions [("Content-Type", v)]).contentType = some v ∧
        (AwsS3.putObjectOptions [("Content-Type", v)]).metadata = [] ∧
        (Azure.putObjectOptions [("Content-Type", v)]).contentSettings.contentType = some v ∧
        (Azure.putObjectOptions [("Content-Type", v)]).metadata = []) ∧
      (∀ (k w : String) (md : List (String × String)),
        k ∉ canonicalMetadataKeys → (k, w) ∈ md →
        (k, w) ∈ (AwsS3.putObjectOptions md).metadata ∧
        (k, w) ∈ (Azure.putObjectOptions md).metadata) := by
  intro v hv
  constructor
  · refine ⟨?_, ?_, ?_, ?_⟩ <;>
      simp [AwsS3.putObjectOptions, Azure.putObjectOptions, takeMetadataKey, List.find?,
        List.filter, hv]
  · intro k w md hk hmem
    simp only [canonicalMetadataKeys, List.mem_cons, List.not_mem_nil, or_false, not_or] at hk
    obtain ⟨h1', h2', h3', h4', h5', h6'⟩ := hk
    constructor
    · exact mem_takeMetadataKey_snd h6' (mem_takeMetadataKey_snd h5' (mem_takeMetadataKey_snd h4'
        (mem_takeMetadataKey_snd h3' (mem_takeMetadataKey_snd h2'
          (mem_takeMetadataKey_snd h1' hmem)))))
    · exact mem_takeMetadataKey_snd h6' (mem_takeMetadataKey_snd h5' (mem_takeMetadataKey_snd h4'
        (mem_takeMetadataKey_snd h3' (mem_takeMetadataKey_snd h2'
          (mem_takeMetadataKey_snd h1' hmem)))))

/-- Witness for C6: the exact canonical key maps natively, the lower-case
variant stays in the custom bag of both providers. -/
theorem c6_canonical_keys_matched_case_sensitively_witness :
    ((AwsS3.putObjectOptions [("Content-Type", "text/plain")]).contentType = some "text/plain" ∧
      (AwsS3.putObjectOptions [("Content-Type", "text/plain")]).metadata = [] ∧
      (Azure.putObjectOptions [("Content-Type", "text/plain")]).contentSettings.contentType =
        some "text/plain" ∧
      (Azure.putObjectOptions [("Content-Type", "text/plain")]).metadata = []) ∧
    (("x-custom", "1") ∈ (AwsS3.putObjectOptions [("x-custom", "1")]).metadata ∧
      ("x-custom", "1") ∈ (Azure.putObjectOptions [("x-custom", "1")]).metadata) := by
  have h := c6_canonical_keys_matched_case_sensitively "text/plain" (by decide)
  exact ⟨h.1, (c6_canonical_keys_matched_case_sensitively "text/plain" (by decide)).2
    "x-custom" "1" [("x-custom", "1")] (by decide) (by decide)⟩
